import Mathlib

/-!
Shallow embedding of the hedgehog request-hedging library.

Embedded components, each translated from the TypeScript source:
* `HedgeBucket` — the local token budget (`tokens` starts at 0, gain 0.05
  per `inc` clamped at 10, cost 1 per `consumeHedge`).
* `LatencyTracker` — the bounded sample window (capacity 100), the raw
  P95 computation, the two-phase smoothed estimate, and `getWaitTime`.
* the hedge coordinator `HedgedContext.fetch` — response classification
  (`handleResponse`), idempotency header preparation, abort-signal
  composition, the speculative branch (including the withdrawn state),
  the `Promise.any` race and the try/catch settlement with hooks.

Machine numbers are modelled as exact rationals (`ℚ`).
-/

/-- The local token bucket (`HedgeBucket` in the source): a single
fractional token level. -/
structure HedgeBucket where
  tokens : ℚ
deriving DecidableEq

/-- Source constant `maxTokens = 10` — the maximum burst allowed. -/
def HedgeBucket.maxTokens : ℚ := 10

/-- Source constant `hedgeCost = 1` — tokens paid per speculative dispatch. -/
def HedgeBucket.hedgeCost : ℚ := 1

/-- Source constant `gainPerRequest = 0.05` — replenishment per rewarded primary success. -/
def HedgeBucket.gainPerRequest : ℚ := 1/20

/-- Source method `canHedge(): return this.tokens >= this.hedgeCost`. -/
def HedgeBucket.canHedge (b : HedgeBucket) : Bool :=
  decide (HedgeBucket.hedgeCost ≤ b.tokens)

/-- Source method `consumeHedge(): this.tokens -= this.hedgeCost` (unconditional). -/
def HedgeBucket.consumeHedge (b : HedgeBucket) : HedgeBucket :=
  ⟨b.tokens - HedgeBucket.hedgeCost⟩

/-- Source method `inc(): this.tokens = Math.min(this.maxTokens, this.tokens + this.gainPerRequest)`. -/
def HedgeBucket.inc (b : HedgeBucket) : HedgeBucket :=
  ⟨min HedgeBucket.maxTokens (b.tokens + HedgeBucket.gainPerRequest)⟩

/-- Source value `export const globalBucket = new HedgeBucket()` — the private field
`tokens` is initialised to 0. -/
def globalBucket : HedgeBucket := ⟨0⟩

/-- One call against the bucket that mutates it (`canHedge` is a pure read
and has no state effect, so a call history is a list of these). -/
inductive BucketOp
  | inc
  | consume
deriving DecidableEq

/-- Apply one mutating bucket call. -/
def HedgeBucket.applyOp (b : HedgeBucket) : BucketOp → HedgeBucket
  | .inc => b.inc
  | .consume => b.consumeHedge

/-- Apply a call history left to right. -/
def HedgeBucket.applyOps (b : HedgeBucket) (ops : List BucketOp) : HedgeBucket :=
  ops.foldl HedgeBucket.applyOp b

/-- The "check before consume" contract: every `consumeHedge` in the
history is issued in a state where `canHedge` returns `true`. -/
def HedgeBucket.guarded : HedgeBucket → List BucketOp → Bool
  | _, [] => true
  | b, op :: rest =>
      (!(op == BucketOp.consume) || b.canHedge) && HedgeBucket.guarded (b.applyOp op) rest

/-- The adaptive latency tracker (`LatencyTracker` in the source): sample
window plus the smoothed P95 scalar. -/
structure LatencyTracker where
  samples : List ℚ
  currentP95 : ℚ
deriving DecidableEq

/-- Source constant `maxSamples = 100` — window capacity. -/
def LatencyTracker.maxSamples : ℕ := 100

/-- Source constant `alpha = 0.2` — the smoothing weight. -/
def LatencyTracker.alpha : ℚ := 1/5

/-- Source constant `minFloor = 25` — the safety floor applied in `getWaitTime`. -/
def LatencyTracker.minFloor : ℤ := 25

/-- A freshly constructed tracker: empty window, `currentP95 = 150`. -/
def LatencyTracker.init : LatencyTracker := ⟨[], 150⟩

/-- Source method `calculateRawP95()`: sort a copy ascending, index at
`Math.max(0, Math.floor(sorted.length * 0.95) - 1)`. Ascending sorts of a
list of rationals all agree (antisymmetry), so `insertionSort` embeds the
JavaScript `sort((a, b) => a - b)` faithfully. -/
def LatencyTracker.calculateRawP95 (t : LatencyTracker) : ℚ :=
  let sorted := t.samples.insertionSort (· ≤ ·)
  let index : ℤ := ⌊(sorted.length : ℚ) * (19/20)⌋ - 1
  sorted.getD (max 0 index).toNat 0

/-- Source method `updateSmoothedP95()`: no-op below 5 samples; overwrite below 20;
exponential blend `currentP95*(1-alpha) + rawP95*alpha` at 20 or more. -/
def LatencyTracker.updateSmoothedP95 (t : LatencyTracker) : LatencyTracker :=
  if t.samples.length < 5 then t
  else if t.samples.length < 20 then { t with currentP95 := t.calculateRawP95 }
  else { t with currentP95 :=
    t.currentP95 * (1 - LatencyTracker.alpha) + t.calculateRawP95 * LatencyTracker.alpha }

/-- Source method `add(ms)`: `shift()` the oldest sample out when at capacity, `push` the
new one, then `updateSmoothedP95()`. -/
def LatencyTracker.add (t : LatencyTracker) (ms : ℚ) : LatencyTracker :=
  let kept := if LatencyTracker.maxSamples ≤ t.samples.length then t.samples.tail else t.samples
  LatencyTracker.updateSmoothedP95 ⟨kept ++ [ms], t.currentP95⟩

/-- Feed a whole history of samples into a fresh tracker. -/
def LatencyTracker.addAll (l : List ℚ) : LatencyTracker :=
  l.foldl LatencyTracker.add LatencyTracker.init

/-- Source method `getWaitTime(): Math.max(this.minFloor, Math.round(this.currentP95))`.
JavaScript `Math.round` rounds half toward positive infinity, which is
Mathlib's `round`. A pure read: it takes the tracker and returns a number,
mutating nothing. -/
def LatencyTracker.getWaitTime (t : LatencyTracker) : ℤ :=
  max LatencyTracker.minFloor (round t.currentP95)

/-- Branch labels (`ResponseLabels` in the source). -/
inductive ResponseLabels
  | primary
  | speculative
deriving DecidableEq

/-- The part of a fetch `Response` the coordinator inspects. -/
structure Response where
  status : ℕ
deriving DecidableEq

/-- Fetch-standard `res.ok`: status in the range 200–299. -/
def Response.ok (r : Response) : Bool :=
  decide (200 ≤ r.status ∧ r.status ≤ 299)

/-- Result of `handleResponse`: either the response is returned together
with its label, or a `Retryable HTTP Error` is thrown. -/
inductive HandleResult
  | returned (res : Response) (label : ResponseLabels)
  | thrown (status : ℕ)
deriving DecidableEq

/-- Source method `handleResponse(res, label)`: return the response when
`res.ok || (res.status >= 400 && res.status < 500)`, otherwise throw
`Retryable HTTP Error: status`. -/
def handleResponse (res : Response) (label : ResponseLabels) : HandleResult :=
  if res.ok || decide (400 ≤ res.status ∧ res.status < 500) then .returned res label
  else .thrown res.status

/-- Abort reasons occurring in the source: the deadline's message string
`Request timed out after (timeoutMs)ms`, or the caller-supplied reason. -/
inductive AbortReason
  | timeoutAfter (ms : ℕ)
  | userReason (r : String)
deriving DecidableEq

/-- JavaScript error values that can settle a promise inside `fetch`. -/
inductive JSError
  | retryableHttp (status : ℕ)
  | network
  | aborted (reason : AbortReason)
  | hookException
  | aggregate (primaryErr specErr : JSError)
  | serviceUnavailable
deriving DecidableEq

/-- The eventual state of a promise: settles with a value, settles with an
error, or never settles at all. -/
inductive PromiseState (α : Type)
  | fulfilled (v : α)
  | rejected (e : JSError)
  | pending
deriving DecidableEq

/-- How one branch's transport exchange ends. -/
inductive BranchEnd
  | httpResponse (status : ℕ)
  | transportFailure
  | abortedWith (reason : AbortReason)
deriving DecidableEq

/-- Eventual state of one branch's request promise: a transport failure or
an abort rejects the fetch before `handleResponse` runs; arrived headers go
through `handleResponse`, whose throw rejects the branch with the
`Retryable HTTP Error`. -/
def branchPromise (label : ResponseLabels) (e : BranchEnd) :
    PromiseState (Response × ResponseLabels) :=
  match e with
  | .httpResponse s =>
      match handleResponse ⟨s⟩ label with
      | .returned r l => .fulfilled (r, l)
      | .thrown st => .rejected (.retryableHttp st)
  | .transportFailure => .rejected .network
  | .abortedWith reason => .rejected (.aborted reason)

/-- The speculative branch after its wake-up, as built in the source: if
the `canHedge()` re-check fails, the code returns `new Promise(() => {})`,
a promise that never settles; otherwise it runs `onHedge?.()` bare (no
try/catch around it, so a throwing hook rejects the branch), pays the
budget and dispatches like a normal branch. -/
def speculativePromise (budgetAtWake onHedgeThrows : Bool) (dispatchEnd : BranchEnd) :
    PromiseState (Response × ResponseLabels) :=
  if !budgetAtWake then .pending
  else if onHedgeThrows then .rejected .hookException
  else branchPromise .speculative dispatchEnd

/-- Eventual state of `Promise.any([primaryRequest, speculativeRequest])`:
fulfilled once some input fulfils, rejected with the `AggregateError` once
every input is rejected, pending otherwise. Used only in scenarios where at
most one input fulfils, so which fulfilment came first is immaterial. -/
def promiseAny (p s : PromiseState (Response × ResponseLabels)) :
    PromiseState (Response × ResponseLabels) :=
  match p, s with
  | .fulfilled v, _ => .fulfilled v
  | _, .fulfilled v => .fulfilled v
  | .rejected e₁, .rejected e₂ => .rejected (.aggregate e₁ e₂)
  | _, _ => .pending

/-- The `catch` block of `fetch`: an `AggregateError` is replaced by the
curated `Service Unavailable: Hedged request failed.` error; every other
error is rethrown unchanged. -/
def catchBlock : JSError → JSError
  | .aggregate _ _ => .serviceUnavailable
  | e => e

/-- Whether the winner-side hook callbacks throw when invoked — the source
calls `onPrimaryWin?.(totalDuration)` and `onSpeculativeWin?.(totalDuration)`
bare inside the `try` block, with no try/catch of their own. -/
structure HookBehaviour where
  primaryWinThrows : Bool
  speculativeWinThrows : Bool
deriving DecidableEq

/-- The `try`/`catch` settlement of `fetch`: await the race, run the
winner-side bookkeeping and hook inside the `try`, and route any escaping
error through the `catch` block. -/
def settleRace (raceResult : PromiseState (Response × ResponseLabels))
    (hooks : HookBehaviour) : PromiseState Response :=
  match raceResult with
  | .pending => .pending
  | .rejected e => .rejected (catchBlock e)
  | .fulfilled (res, label) =>
      match label with
      | .primary =>
          if hooks.primaryWinThrows then .rejected (catchBlock .hookException)
          else .fulfilled res
      | .speculative =>
          if hooks.speculativeWinThrows then .rejected (catchBlock .hookException)
          else .fulfilled res

/-- End-to-end eventual result of `HedgedContext.fetch`, as a function of
how each branch would end: when hedging is allowed
(`isSafeMethod || forceHedge`) the speculative promise is constructed and
raced against the primary with `Promise.any`; otherwise the primary alone
is awaited. -/
def hedgedFetchResult (hedgingAllowed : Bool) (primaryEnd : BranchEnd)
    (budgetAtWake onHedgeThrows : Bool) (specEnd : BranchEnd)
    (hooks : HookBehaviour) : PromiseState Response :=
  let p := branchPromise .primary primaryEnd
  if hedgingAllowed then
    settleRace (promiseAny p (speculativePromise budgetAtWake onHedgeThrows specEnd)) hooks
  else settleRace p hooks

/-- Line 40 of the source: `if (userSignal && userSignal.aborted) throw
userSignal.reason` — the caller's reason is thrown verbatim before any
attempt is dispatched. -/
def entryAbortCheck (hasUserSignal userAborted : Bool) (reason : String) :
    Option String :=
  if hasUserSignal && userAborted then some reason else none

/-- Source expression `(standardFetchOptions.method ?? 'GET').toUpperCase()` — HTTP method
names are ASCII, where JavaScript `toUpperCase` uppercases each character. -/
def normalizedMethod (method : Option String) : String :=
  ⟨(method.getD "GET").data.map Char.toUpper⟩

/-- Source test `isSafeMethod = ['GET', 'HEAD', 'OPTIONS'].includes(method)`. -/
def isSafeMethod (m : String) : Bool :=
  (["GET", "HEAD", "OPTIONS"] : List String).contains m

/-- Whether `fetch` attaches a freshly generated `Idempotency-Key` header
before dispatch. The source guards with
`method === 'POST' && (forceHedge || autoIdempotency)` and inside it with
`!headers.has('Idempotency-Key') && autoIdempotency`. -/
def attachesIdempotencyKey (method : Option String)
    (forceHedge autoIdempotency hasIdempotencyKey : Bool) : Bool :=
  if normalizedMethod method == "POST" && (forceHedge || autoIdempotency) then
    if !hasIdempotencyKey && autoIdempotency then true else false
  else false

/-- The abort sources existing in one call to `fetch`. -/
inductive SignalSource
  | user
  | primaryCtrl
  | speculativeCtrl
  | globalTimeout
deriving DecidableEq

/-- The primary branch's signal: `userSignal ? AbortSignal.any([userSignal,
primaryController.signal, globalTimeoutController.signal]) :
primaryController.signal`. `fired s` says source `s` has aborted. -/
def primarySignalAborted (hasUserSignal : Bool) (fired : SignalSource → Bool) : Bool :=
  if hasUserSignal then fired .user || fired .primaryCtrl || fired .globalTimeout
  else fired .primaryCtrl

/-- The speculative branch's signal: `userSignal ?
AbortSignal.any([userSignal, speculativeController.signal,
globalTimeoutController.signal]) : speculativeController.signal`. -/
def speculativeSignalAborted (hasUserSignal : Bool) (fired : SignalSource → Bool) : Bool :=
  if hasUserSignal then fired .user || fired .speculativeCtrl || fired .globalTimeout
  else fired .speculativeCtrl

/-- The deadline timer is armed only when `timeoutMs` is given (and
truthy); only then can `globalTimeoutController` abort. -/
def deadlineArmed (timeoutMs : Option ℕ) : Bool :=
  match timeoutMs with
  | some ms => decide (ms ≠ 0)
  | none => false

/-- Claim C1: the claim says a race whose budget check fails at speculative
wake-up settles purely on the primary outcome, including the primary's
retryable-failure, leaving no phantom pending task. In the code the
withdrawn branch is `new Promise(() => {})`, which never settles; evaluated
at the failing input (hedging allowed, budget check false, primary ends
with status 500) the whole fetch promise therefore never settles. When the
primary succeeds instead, the withdrawn branch indeed never produces a
result and never wins. -/
theorem C1_withdrawn_branch_never_settles :
    hedgedFetchResult true (.httpResponse 500) false false (.httpResponse 200)
        ⟨false, false⟩ = .pending
    ∧ hedgedFetchResult true (.httpResponse 200) false false (.httpResponse 200)
        ⟨false, false⟩ = .fulfilled ⟨200⟩ := by
  decide

/-- Claim C2: the claim says both branches' signals are composed from the
caller's token, the deadline token and the per-branch handle, also when the
caller supplies no token. In the code the `AbortSignal.any` composition is
built only when `userSignal` is present; with no caller token each branch
listens solely to its own controller, so a fired deadline aborts neither
branch (first conjunct — the failing input); with a caller token present
the deadline and the caller's token abort both branches as documented
(remaining conjuncts). -/
theorem C2_deadline_dropped_without_user_signal :
    (primarySignalAborted false (fun s => s == .globalTimeout) = false
      ∧ speculativeSignalAborted false (fun s => s == .globalTimeout) = false)
    ∧ (primarySignalAborted true (fun s => s == .globalTimeout) = true
      ∧ speculativeSignalAborted true (fun s => s == .globalTimeout) = true)
    ∧ (primarySignalAborted true (fun s => s == .user) = true
      ∧ speculativeSignalAborted true (fun s => s == .user) = true)
    ∧ deadlineArmed none = false := by
  decide

/-- Claim C3 counterexample: with both branches live, a fired deadline does
not fail the race with a distinct TimeoutError — both branches reject with
the abort reason, `Promise.any` aggregates them, and the `catch` block
converts the aggregate into exactly the same `Service Unavailable` error
that the both-branches-failed case produces. -/
theorem C3_counterexample :
    hedgedFetchResult true (.abortedWith (.timeoutAfter 5000)) true false
        (.abortedWith (.timeoutAfter 5000)) ⟨false, false⟩
      = .rejected .serviceUnavailable
    ∧ hedgedFetchResult true (.httpResponse 500) true false (.httpResponse 503)
        ⟨false, false⟩ = .rejected .serviceUnavailable := by
  decide

/-- Claim C3 (amended): a caller token already aborted at entry makes
`fetch` throw the caller's reason verbatim before dispatch; in a
primary-only race a fired deadline or caller cancellation propagates the
abort reason (the caller's reason verbatim, or the timeout message) as the
race failure; but in a hedged race with both branches live the two abort
rejections aggregate and the race fails with the same generic
`Service Unavailable` error as the both-branches-failed case — there are no
distinct TimeoutError/CancellationError values. -/
theorem C3_cancellation_propagation (r : String) (ms : ℕ)
    (reason₁ reason₂ : AbortReason) (budgetAtWake onHedgeThrows : Bool)
    (specEnd : BranchEnd) (hooks : HookBehaviour) :
    entryAbortCheck true true r = some r
    ∧ hedgedFetchResult false (.abortedWith (.userReason r)) budgetAtWake
        onHedgeThrows specEnd hooks = .rejected (.aborted (.userReason r))
    ∧ hedgedFetchResult false (.abortedWith (.timeoutAfter ms)) budgetAtWake
        onHedgeThrows specEnd hooks = .rejected (.aborted (.timeoutAfter ms))
    ∧ hedgedFetchResult true (.abortedWith reason₁) true false
        (.abortedWith reason₂) hooks = .rejected .serviceUnavailable := by
  refine ⟨rfl, ?_, ?_, ?_⟩ <;>
    simp [hedgedFetchResult, branchPromise, settleRace, catchBlock, promiseAny,
      speculativePromise]

/-- A branch's request promise on arrived headers, characterised by the
status ranges the `handleResponse` test actually accepts. -/
theorem branchPromise_httpResponse (s : ℕ) (label : ResponseLabels) :
    branchPromise label (.httpResponse s) =
      if (200 ≤ s ∧ s < 300) ∨ (400 ≤ s ∧ s < 500) then
        .fulfilled (⟨s⟩, label)
      else .rejected (.retryableHttp s) := by
  unfold branchPromise handleResponse Response.ok
  by_cases h : (200 ≤ s ∧ s < 300) ∨ (400 ≤ s ∧ s < 500)
  · rw [if_pos h]
    have h2 : 200 ≤ s ∧ s ≤ 299 ∨ 400 ≤ s ∧ s < 500 := by omega
    simp [h2]
  · rw [if_neg h]
    have h2 : ¬(200 ≤ s ∧ s ≤ 299 ∨ 400 ≤ s ∧ s < 500) := by omega
    simp [h2]

/-- Claim C4 counterexample: a 301 response lies in [200,400), so the claim
says it is accepted; the code tests `res.ok` (status 200–299), so 301 falls
through and is thrown as a `Retryable HTTP Error` — even though the claim
says retryable-failure happens exactly for status ≥ 500 or transport
failure. -/
theorem C4_counterexample :
    branchPromise .primary (.httpResponse 301) = .rejected (.retryableHttp 301)
    ∧ (200 ≤ 301 ∧ 301 < 400) ∧ ¬ (500 : ℕ) ≤ 301 := by
  decide

/-- Claim C4 (amended): classification accepts a branch response (returned
as-is) exactly when the HTTP status is in [200,300) or [400,500), and
yields a retryable-failure exactly when the status is outside both ranges
(1xx, 3xx, or ≥ 500) or the exchange failed at the transport level. -/
theorem C4_classification (s : ℕ) (label : ResponseLabels) :
    (branchPromise label (.httpResponse s) = .fulfilled (⟨s⟩, label)
        ↔ ((200 ≤ s ∧ s < 300) ∨ (400 ≤ s ∧ s < 500)))
    ∧ (branchPromise label (.httpResponse s) = .rejected (.retryableHttp s)
        ↔ ¬((200 ≤ s ∧ s < 300) ∨ (400 ≤ s ∧ s < 500)))
    ∧ branchPromise label .transportFailure = .rejected .network := by
  refine ⟨?_, ?_, rfl⟩ <;> rw [branchPromise_httpResponse] <;>
    split_ifs with h <;> simp [h]

/-- Claim C5 counterexample: PATCH is an unsafe method (not GET, HEAD or
OPTIONS) and `autoIdempotency` is set with no idempotency header present,
so the claim says a fresh idempotency token is attached; the code only
attaches for `method === 'POST'`, so nothing is attached. -/
theorem C5_counterexample :
    attachesIdempotencyKey (some "PATCH") false true false = false
    ∧ isSafeMethod (normalizedMethod (some "PATCH")) = false := by
  decide

/-- Claim C5 (amended): a freshly generated idempotency token is attached
exactly when the (uppercased) method is POST — an unsafe method — with
`autoIdempotency` set, no idempotency header already present, and
`forceHedge` or `autoIdempotency` holding; unsafe methods other than POST
never get one. -/
theorem C5_idempotency_attachment (method : Option String)
    (forceHedge autoIdempotency hasKey : Bool) :
    (attachesIdempotencyKey method forceHedge autoIdempotency hasKey = true
      ↔ (normalizedMethod method = "POST" ∧ (forceHedge = true ∨ autoIdempotency = true)
          ∧ hasKey = false ∧ autoIdempotency = true))
    ∧ isSafeMethod "POST" = false := by
  constructor
  · simp [attachesIdempotencyKey]
    tauto
  · decide

/-- Claim C6: the claim says hook exceptions are caught and never abort or
alter the race. In the code the hooks are invoked bare: at the failing
input (primary wins with 200 OK, `onPrimaryWin` throws) the exception
escapes the `try` block, both controllers are aborted and `fetch` rejects
with the hook's exception instead of returning the winning response
(conjuncts 1–2); likewise a throwing `onHedge` rejects the speculative
branch, turning a race the speculative branch would have won into the
aggregated failure (conjuncts 3–4). -/
theorem C6_hook_exception_escapes :
    hedgedFetchResult true (.httpResponse 200) true false
        (.abortedWith (.timeoutAfter 1)) ⟨true, false⟩ = .rejected .hookException
    ∧ hedgedFetchResult true (.httpResponse 200) true false
        (.abortedWith (.timeoutAfter 1)) ⟨false, false⟩ = .fulfilled ⟨200⟩
    ∧ hedgedFetchResult true (.httpResponse 500) true true (.httpResponse 200)
        ⟨false, false⟩ = .rejected .serviceUnavailable
    ∧ hedgedFetchResult true (.httpResponse 500) true false (.httpResponse 200)
        ⟨false, false⟩ = .fulfilled ⟨200⟩ := by
  decide

/-- Lemma: `updateSmoothedP95` only rewrites the estimate; the window is kept. -/
theorem LatencyTracker.updateSmoothedP95_samples (t : LatencyTracker) :
    t.updateSmoothedP95.samples = t.samples := by
  unfold LatencyTracker.updateSmoothedP95
  split_ifs <;> rfl

/-- The estimate written by `updateSmoothedP95`, by window size. -/
theorem LatencyTracker.updateSmoothedP95_currentP95 (t : LatencyTracker) :
    t.updateSmoothedP95.currentP95 =
      if t.samples.length < 5 then t.currentP95
      else if t.samples.length < 20 then t.calculateRawP95
      else t.currentP95 * (1 - LatencyTracker.alpha)
        + t.calculateRawP95 * LatencyTracker.alpha := by
  unfold LatencyTracker.updateSmoothedP95
  split_ifs <;> rfl

/-- The window after `add`: evict the oldest at capacity, append the new
sample. -/
theorem LatencyTracker.add_samples (t : LatencyTracker) (x : ℚ) :
    (t.add x).samples =
      (if LatencyTracker.maxSamples ≤ t.samples.length then t.samples.tail
       else t.samples) ++ [x] := by
  unfold LatencyTracker.add
  rw [LatencyTracker.updateSmoothedP95_samples]

/-- The estimate after `add`, by post-add window size. -/
theorem LatencyTracker.add_currentP95 (t : LatencyTracker) (x : ℚ) :
    (t.add x).currentP95 =
      if (t.add x).samples.length < 5 then t.currentP95
      else if (t.add x).samples.length < 20 then (t.add x).calculateRawP95
      else t.currentP95 * (1 - LatencyTracker.alpha)
        + (t.add x).calculateRawP95 * LatencyTracker.alpha := by
  have hraw : (t.add x).calculateRawP95 =
      LatencyTracker.calculateRawP95
        ⟨(if LatencyTracker.maxSamples ≤ t.samples.length then t.samples.tail
          else t.samples) ++ [x], t.currentP95⟩ := by
    unfold LatencyTracker.calculateRawP95
    rw [LatencyTracker.add_samples]
  simp only [LatencyTracker.add_samples, hraw]
  conv_lhs => rw [LatencyTracker.add]
  rw [LatencyTracker.updateSmoothedP95_currentP95]

/-- Window length along a fold of `add`, starting from a legal window. -/
theorem LatencyTracker.foldl_add_length (l : List ℚ) :
    ∀ t : LatencyTracker, t.samples.length ≤ 100 →
      (l.foldl LatencyTracker.add t).samples.length = min (t.samples.length + l.length) 100 := by
  induction l with
  | nil =>
      intro t ht
      simp only [List.foldl_nil, List.length_nil, Nat.add_zero]
      omega
  | cons x xs ih =>
      intro t ht
      rw [List.foldl_cons]
      by_cases hc : LatencyTracker.maxSamples ≤ t.samples.length
      · have h100 : t.samples.length = 100 := by
          have hc2 := hc
          simp only [LatencyTracker.maxSamples] at hc2
          omega
        have hadd : (t.add x).samples.length = 100 := by
          rw [LatencyTracker.add_samples, if_pos hc]
          simp only [List.length_append, List.length_tail, List.length_singleton, h100]
        rw [ih (t.add x) (by omega)]
        rw [hadd]
        omega
      · have hlt : t.samples.length < 100 := by
          simp only [LatencyTracker.maxSamples] at hc
          omega
        have hadd : (t.add x).samples.length = t.samples.length + 1 := by
          rw [LatencyTracker.add_samples, if_neg hc]
          simp
        rw [ih (t.add x) (by omega)]
        rw [hadd]
        simp only [List.length_cons]
        omega

/-- Window length after feeding a history into a fresh tracker: the window
never exceeds the capacity of 100. -/
theorem LatencyTracker.addAll_length (l : List ℚ) :
    (LatencyTracker.addAll l).samples.length = min l.length 100 := by
  have h := LatencyTracker.foldl_add_length l LatencyTracker.init (by simp [LatencyTracker.init])
  simpa [LatencyTracker.addAll, LatencyTracker.init] using h

/-- Claim C7: for every sequence of `add` calls, with fewer than 5 total
samples the smoothed estimate is unchanged by the latest add; with 5 to 19
total samples the add overwrites the estimate with the raw percentile of
the new window (sorted ascending, indexed at `max(0, floor(n*0.95) - 1)`,
which is `calculateRawP95`); with 20 or more it blends 0.8 times the
previous estimate with 0.2 times that raw percentile. Adding
`[100,100,100,100,100]` to a fresh tracker yields estimate 100. -/
theorem C7_two_phase_estimate (l : List ℚ) (x : ℚ) :
    ((LatencyTracker.addAll (l ++ [x])).currentP95 =
      if l.length + 1 < 5 then (LatencyTracker.addAll l).currentP95
      else if l.length + 1 < 20 then
        (LatencyTracker.addAll (l ++ [x])).calculateRawP95
      else (LatencyTracker.addAll l).currentP95 * (4/5)
        + (LatencyTracker.addAll (l ++ [x])).calculateRawP95 * (1/5))
    ∧ (LatencyTracker.addAll [100,100,100,100,100]).currentP95 = 100 := by
  constructor
  · have happ : LatencyTracker.addAll (l ++ [x]) = (LatencyTracker.addAll l).add x := by
      simp [LatencyTracker.addAll]
    have hlen : ((LatencyTracker.addAll l).add x).samples.length = min (l.length + 1) 100 := by
      rw [← happ]
      simpa using LatencyTracker.addAll_length (l ++ [x])
    rw [happ, LatencyTracker.add_currentP95]
    simp only [hlen]
    by_cases h5 : l.length + 1 < 5
    · rw [if_pos (by omega : min (l.length + 1) 100 < 5), if_pos h5]
    · rw [if_neg (by omega : ¬ min (l.length + 1) 100 < 5), if_neg h5]
      by_cases h20 : l.length + 1 < 20
      · rw [if_pos (by omega : min (l.length + 1) 100 < 20), if_pos h20]
      · rw [if_neg (by omega : ¬ min (l.length + 1) 100 < 20), if_neg h20]
        norm_num [LatencyTracker.alpha]
  · norm_num [LatencyTracker.addAll, LatencyTracker.add, LatencyTracker.updateSmoothedP95,
      LatencyTracker.calculateRawP95, LatencyTracker.init, LatencyTracker.maxSamples,
      List.insertionSort, List.orderedInsert, Int.floor_eq_iff]
    rfl

/-- Claim C9: for every sequence of added samples (with or without the
claim's five-sample qualifier), `getWaitTime` equals
`max(25, round(Smoothed Estimate))`, hence is at least 25, and it is a pure
read — in the embedding it is a plain function of the tracker, and the
floor is applied at read time only: after five samples of 10 the stored
estimate is 10, below the floor, while `getWaitTime` still reads 25. -/
theorem C9_wait_time_floor (l : List ℚ) :
    25 ≤ LatencyTracker.getWaitTime (LatencyTracker.addAll l)
    ∧ LatencyTracker.getWaitTime (LatencyTracker.addAll l)
        = max 25 (round (LatencyTracker.addAll l).currentP95)
    ∧ (LatencyTracker.addAll [10,10,10,10,10]).currentP95 = 10
    ∧ LatencyTracker.getWaitTime (LatencyTracker.addAll [10,10,10,10,10]) = 25 := by
  refine ⟨?_, rfl, ?_, ?_⟩
  · simpa [LatencyTracker.getWaitTime, LatencyTracker.minFloor] using
      le_max_left (25 : ℤ) (round (LatencyTracker.addAll l).currentP95)
  · norm_num [LatencyTracker.addAll, LatencyTracker.add, LatencyTracker.updateSmoothedP95,
      LatencyTracker.calculateRawP95, LatencyTracker.init, LatencyTracker.maxSamples,
      List.insertionSort, List.orderedInsert, Int.floor_eq_iff]
    rfl
  · norm_num [LatencyTracker.addAll, LatencyTracker.add, LatencyTracker.updateSmoothedP95,
      LatencyTracker.calculateRawP95, LatencyTracker.init, LatencyTracker.maxSamples,
      LatencyTracker.getWaitTime, LatencyTracker.minFloor, round_eq,
      List.insertionSort, List.orderedInsert, Int.floor_eq_iff]
    norm_num [show (([10,10,10,10,10] : List ℚ)[Int.toNat 3]) = 10 from rfl]

/-- Stepping the bucket by a guarded history keeps the level in [0, 10]. -/
theorem HedgeBucket.applyOps_bounds (ops : List BucketOp) :
    ∀ b : HedgeBucket, 0 ≤ b.tokens → b.tokens ≤ 10 →
      HedgeBucket.guarded b ops = true →
      0 ≤ (b.applyOps ops).tokens ∧ (b.applyOps ops).tokens ≤ 10 := by
  induction ops with
  | nil =>
      intro b h0 h10 _
      simpa [HedgeBucket.applyOps] using ⟨h0, h10⟩
  | cons op rest ih =>
      intro b h0 h10 hg
      have hg2 : ((!(op == BucketOp.consume) || b.canHedge)
          && HedgeBucket.guarded (b.applyOp op) rest) = true := hg
      rw [Bool.and_eq_true] at hg2
      have hbounds : 0 ≤ (b.applyOp op).tokens ∧ (b.applyOp op).tokens ≤ 10 := by
        cases op with
        | inc =>
            constructor
            · simp only [HedgeBucket.applyOp, HedgeBucket.inc, HedgeBucket.maxTokens,
                HedgeBucket.gainPerRequest, le_min_iff]
              constructor <;> linarith
            · simpa [HedgeBucket.applyOp, HedgeBucket.inc, HedgeBucket.maxTokens] using
                min_le_left (10 : ℚ) (b.tokens + HedgeBucket.gainPerRequest)
        | consume =>
            have hcan : b.canHedge = true := by
              simpa using hg2.1
            have h1 : (1 : ℚ) ≤ b.tokens := by
              simpa [HedgeBucket.canHedge, HedgeBucket.hedgeCost] using hcan
            constructor
            · simp only [HedgeBucket.applyOp, HedgeBucket.consumeHedge, HedgeBucket.hedgeCost]
              linarith
            · simp only [HedgeBucket.applyOp, HedgeBucket.consumeHedge, HedgeBucket.hedgeCost]
              linarith
      have hrest : (b.applyOps (op :: rest)) = ((b.applyOp op).applyOps rest) := rfl
      rw [hrest]
      exact ih (b.applyOp op) hbounds.1 hbounds.2 hg2.2

/-- Claim C8: under any call history respecting the check-before-consume
contract, the global bucket's token level stays within [0, 10]; moreover
`inc` adds 0.05 clamped at 10, `consumeHedge` subtracts 1, and `canHedge`
returns true exactly when the level is at least 1. -/
theorem C8_budget_invariant (ops : List BucketOp)
    (h : HedgeBucket.guarded globalBucket ops = true) :
    (0 ≤ (HedgeBucket.applyOps globalBucket ops).tokens
      ∧ (HedgeBucket.applyOps globalBucket ops).tokens ≤ 10)
    ∧ (∀ b : HedgeBucket,
        b.inc.tokens = min 10 (b.tokens + 1/20)
        ∧ b.consumeHedge.tokens = b.tokens - 1
        ∧ (b.canHedge = true ↔ 1 ≤ b.tokens)) := by
  refine ⟨HedgeBucket.applyOps_bounds ops globalBucket (by norm_num [globalBucket])
    (by norm_num [globalBucket]) h, ?_⟩
  intro b
  refine ⟨rfl, rfl, ?_⟩
  simp [HedgeBucket.canHedge, HedgeBucket.hedgeCost]

/-- Claim C8 witness: a concrete guarded history on the fresh global
bucket, with the invariant instantiated there. -/
theorem C8_budget_invariant_witness :
    HedgeBucket.guarded globalBucket [BucketOp.inc] = true
    ∧ 0 ≤ (HedgeBucket.applyOps globalBucket [BucketOp.inc]).tokens
    ∧ (HedgeBucket.applyOps globalBucket [BucketOp.inc]).tokens ≤ 10 := by
  have hg : HedgeBucket.guarded globalBucket [BucketOp.inc] = true := by
    simp [HedgeBucket.guarded, HedgeBucket.applyOp]
  exact ⟨hg, (C8_budget_invariant [BucketOp.inc] hg).1.1, (C8_budget_invariant [BucketOp.inc] hg).1.2⟩

/-- Token level after `k` bare `inc` calls on the fresh global bucket. -/
theorem HedgeBucket.iterate_inc_tokens (k : ℕ) :
    (HedgeBucket.inc^[k] globalBucket).tokens = min 10 ((k : ℚ) / 20) := by
  induction k with
  | zero =>
      simp [globalBucket]
  | succ n ih =>
      rw [Function.iterate_succ_apply', HedgeBucket.inc, ih]
      simp only [HedgeBucket.maxTokens, HedgeBucket.gainPerRequest]
      rcases le_or_lt ((n : ℚ) / 20) 10 with h | h
      · rw [min_eq_right h]
        have : ((n : ℚ) + 1) / 20 = (n : ℚ) / 20 + 1 / 20 := by ring
        rw [Nat.cast_succ, this]
      · rw [min_eq_left h.le, min_eq_left (by norm_num : (10 : ℚ) ≤ 10 + 1 / 20)]
        have h2 : (10 : ℚ) ≤ ((n : ℕ) + 1 : ℕ) / 20 := by
          push_cast
          linarith
        rw [min_eq_left h2]

/-- Claim C10: the fresh local bucket starts at token level 0, and
`canHedge` on a bucket that has only seen `inc` calls returns true exactly
when at least 20 of them have happened — so a new process dispatches no
speculative attempt before 20 rewarded primary completions. -/
theorem C10_cold_start (k : ℕ) :
    globalBucket.tokens = 0
    ∧ (HedgeBucket.canHedge (HedgeBucket.inc^[k] globalBucket) = true ↔ 20 ≤ k) := by
  refine ⟨rfl, ?_⟩
  rw [HedgeBucket.canHedge, HedgeBucket.iterate_inc_tokens]
  simp only [HedgeBucket.hedgeCost, decide_eq_true_eq, le_min_iff]
  constructor
  · rintro ⟨-, h⟩
    have h20 : (20 : ℚ) ≤ (k : ℚ) := by linarith
    exact_mod_cast h20
  · intro h
    refine ⟨by norm_num, ?_⟩
    have h20 : (20 : ℚ) ≤ (k : ℚ) := by exact_mod_cast h
    linarith
